import Mathlib

/-!
Verification of the elevator-sim core: a shallow embedding of the
simulation engine (`src/lib.rs`) and of the reply-processing loop of the
protocol driver (`src/bin/local_judge.rs`), together with theorems about
the frozen specification claims.

Machine integers (`usize`, `u64`) are modelled as `Nat`; `usize`
subtraction appears as truncated `Nat` subtraction, and the theorems carry
the `arrival_turn ≤ turn` side conditions under which the Rust subtraction
does not underflow.
-/

namespace ElevatorSim

/-- A waiting or riding passenger, mirroring `struct Passenger` in `lib.rs`. -/
structure Passenger where
  id : Nat
  arrival_turn : Nat
  target_floor : Nat
deriving Repr, DecidableEq

/-- One elevator car, mirroring `struct Elevator` in `lib.rs`. -/
structure Elevator where
  floor : Nat
  capacity : Nat
  passengers : List Passenger
deriving Repr, DecidableEq

/-- The whole mutable simulation state, mirroring `struct SimulationState`. -/
structure SimulationState where
  n : Nat
  m : Nat
  c : Nat
  t : Nat
  turn : Nat
  score : Nat
  elevators : List Elevator
  waiting_passengers : List (List Passenger)
deriving Repr, DecidableEq

/-- The error cases `apply_action` can `bail!` with. -/
inductive SimError where
  | invalidElevatorIndex (idx : Nat)
  | invalidPassengerIndex (idx floor : Nat)
  | unknownAction (action : String)
deriving Repr, DecidableEq

/-- Default used to total out-of-range list reads (Rust would panic there;
all theorems stay within the in-range regime). -/
def defaultElevator : Elevator := ⟨0, 0, []⟩

/-- Read elevator `i` (`self.elevators[i]`). -/
def getElevator (s : SimulationState) (i : Nat) : Elevator :=
  s.elevators.getD i defaultElevator

/-- Write elevator `i`. -/
def setElevator (s : SimulationState) (i : Nat) (e : Elevator) : SimulationState :=
  { s with elevators := s.elevators.set i e }

/-- Read the waiting queue of floor `f` (`self.waiting_passengers[f]`). -/
def getQueue (s : SimulationState) (f : Nat) : List Passenger :=
  s.waiting_passengers.getD f []

/-- Write the waiting queue of floor `f`. -/
def setQueue (s : SimulationState) (f : Nat) (q : List Passenger) : SimulationState :=
  { s with waiting_passengers := s.waiting_passengers.set f q }

/-- `sorted_picks.sort_unstable_by(|a, b| b.cmp(a))`: the pick indices in
descending order.  On `Nat` keys the unstable sort's output is the unique
`≥`-sorted permutation, which `insertionSort` also produces. -/
def sortDesc (l : List Nat) : List Nat :=
  l.insertionSort (fun a b => b ≤ a)

/-- The pick-up loop of the `OPEN` branch of `apply_action`: walk the
(descending-sorted) indices; an index `≥` the live queue length bails,
a full elevator skips the pick, otherwise the passenger at that queue
position moves to the back of the aboard list. -/
def pickLoop : List Passenger → List Passenger → Nat → Nat → List Nat →
    List Passenger × List Passenger × Option SimError
  | q, el, _, _, [] => (q, el, none)
  | q, el, cap, f, idx :: rest =>
    if q.length ≤ idx then (q, el, some (.invalidPassengerIndex idx f))
    else if cap ≤ el.length then pickLoop q el cap f rest
    else pickLoop (q.eraseIdx idx) (el ++ [q.getD idx ⟨0, 0, 0⟩]) cap f rest

/-- The `"OPEN"` branch of `apply_action`: drop off every aboard passenger
whose target is the current floor, scoring `(turn - arrival_turn + 1)^2`
for each, then run the pick-up loop on the descending-sorted indices. -/
def openAction (s : SimulationState) (i : Nat) (picks : List Nat) :
    SimulationState × Option SimError :=
  let e := getElevator s i
  let current_floor := e.floor
  let delivered := e.passengers.filter (fun p => p.target_floor == current_floor)
  let remaining := e.passengers.filter (fun p => !(p.target_floor == current_floor))
  let score2 := delivered.foldl (fun acc p => acc + (s.turn - p.arrival_turn + 1) ^ 2) s.score
  let r := pickLoop (getQueue s current_floor) remaining e.capacity current_floor
    (sortDesc picks)
  (setQueue (setElevator { s with score := score2 } i { e with passengers := r.2.1 })
    current_floor r.1, r.2.2)

/-- `SimulationState::apply_action`.  The Rust method mutates `&mut self`
and returns `Result<()>`; here the (possibly partially updated, exactly as
the Rust leaves it) state is returned together with the error, if any. -/
def applyAction (s : SimulationState) (elevator_idx : Nat) (action : String)
    (picks : List Nat) : SimulationState × Option SimError :=
  if s.m ≤ elevator_idx then (s, some (.invalidElevatorIndex elevator_idx))
  else
    match action with
    | "UP" =>
      (setElevator s elevator_idx
        { getElevator s elevator_idx with
          floor := min ((getElevator s elevator_idx).floor + 1) (s.n - 1) }, none)
    | "DOWN" =>
      (setElevator s elevator_idx
        { getElevator s elevator_idx with
          floor := (getElevator s elevator_idx).floor - 1 }, none)
    | "STAY" => (s, none)
    | "OPEN" => openAction s elevator_idx picks
    | a => (s, some (.unknownAction a))

/-- Fold a whole list of `(elevator_idx, action, picks)` commands through
`applyAction`, keeping the state (errors discard nothing: the Rust state
after a `bail!` is exactly the returned state). -/
def applySeq (s : SimulationState) (acts : List (Nat × String × List Nat)) :
    SimulationState :=
  acts.foldl (fun st a => (applyAction st a.1 a.2.1 a.2.2).1) s

/-- `SimulationState::new(n, m, c, t)`. -/
def SimulationState.new (n m c t : Nat) : SimulationState :=
  { n := n, m := m, c := c, t := t, turn := 0, score := 0,
    elevators := List.replicate m { floor := n / 2, capacity := c, passengers := [] },
    waiting_passengers := List.replicate n [] }

/-- `SimulationState::calculate_final_score`: the cumulative score plus
`(t - arrival_turn)^2` for every passenger still waiting at a floor or
still aboard an elevator, written as the source's accumulating loops. -/
def calculate_final_score (s : SimulationState) : Nat :=
  let fs1 := s.waiting_passengers.foldl
    (fun acc q => q.foldl (fun a p => a + (s.t - p.arrival_turn) ^ 2) acc) s.score
  s.elevators.foldl
    (fun acc e => e.passengers.foldl (fun a p => a + (s.t - p.arrival_turn) ^ 2) acc) fs1

/-! ### The protocol driver (`src/bin/local_judge.rs`)

The judge's per-turn exchange with the agent process is embedded over a
list of reply lines, each line already split into whitespace tokens (the
Rust reads lines from the child's stdout and splits them the same way);
an exhausted list models the child's stdout being closed/at EOF. -/

/-- The fatal protocol errors of the judge's action-reading loop. -/
inductive JudgeError where
  | agentTerminated (turn elevator : Nat)
  | emptyActionLine (turn elevator : Nat)
  | invalidPickFormat
  | invalidAction (turn elevator : Nat) (e : SimError)
deriving Repr, DecidableEq

/-- Parse the pick tokens of an `OPEN` line
(`p_idx_str.parse::<usize>()`, failure is fatal). -/
def parsePicks : List String → Option (List Nat)
  | [] => some []
  | tok :: rest =>
    match tok.toNat? with
    | some v => (parsePicks rest).map (fun l => v :: l)
    | none => none

/-- The judge's per-turn action loop (`for i in 0..m` over reply lines):
read one reply line per elevator index, bail if the stream is exhausted
(`read_line == 0`), on an all-whitespace line, on an unparseable pick
token, or on an `apply_action` error; otherwise apply and continue. -/
def processActions (s : SimulationState) (turn : Nat) :
    List Nat → List (List String) →
    SimulationState × List (List String) × Option JudgeError
  | [], lines => (s, lines, none)
  | i :: _, [] => (s, [], some (.agentTerminated turn i))
  | i :: rest, line :: lines =>
    match line with
    | [] => (s, lines, some (.emptyActionLine turn i))
    | action :: pickToks =>
      match (if action = "OPEN" then parsePicks pickToks else some []) with
      | none => (s, lines, some .invalidPickFormat)
      | some picks =>
        match applyAction s i action picks with
        | (s2, none) => processActions s2 turn rest lines
        | (s2, some e) => (s2, lines, some (.invalidAction turn i e))

/-- One whole turn of reply reading: the judge reads exactly `m` lines,
one per elevator index in order. -/
def judgeTurnActions (s : SimulationState) (turn : Nat)
    (lines : List (List String)) :
    SimulationState × List (List String) × Option JudgeError :=
  processActions s turn (List.range s.m) lines

/-- The numeric tokens the judge writes on an elevator's state line:
the aboard count, then for each aboard passenger its target floor and a
literal `0` (`write!(stdin, " {} {}", target, 0)`). -/
def elevatorReportTokens (e : Elevator) : List Nat :=
  e.passengers.length :: e.passengers.flatMap (fun p => [p.target_floor, 0])

/-- The numeric tokens the judge writes on a floor's state line: the
waiting count, then each waiting passenger's target floor and a literal
`0`. -/
def floorReportTokens (q : List Passenger) : List Nat :=
  q.length :: q.flatMap (fun p => [p.target_floor, 0])

/-- The elevator state line as the specification describes it: aboard
count, then for each aboard passenger its destination floor and its
elapsed ride/wait time `turn - arrival_turn`.  Stated from the spec's
words, for comparison with `elevatorReportTokens`. -/
def specElevatorReportTokens (turn : Nat) (e : Elevator) : List Nat :=
  e.passengers.length :: e.passengers.flatMap
    (fun p => [p.target_floor, turn - p.arrival_turn])

/-- The floor state line as the specification describes it. -/
def specFloorReportTokens (turn : Nat) (q : List Passenger) : List Nat :=
  q.length :: q.flatMap (fun p => [p.target_floor, turn - p.arrival_turn])

/-! ### Passenger accounting -/

/-- The passengers a given `apply_action` call delivers (drops off and
discards): the addressed elevator's aboard passengers whose target is its
current floor, when the action is a well-addressed `OPEN`; nobody
otherwise. -/
def deliveredBy (s : SimulationState) (i : Nat) (action : String) : List Passenger :=
  if i < s.m ∧ action = "OPEN" then
    (getElevator s i).passengers.filter
      (fun p => p.target_floor == (getElevator s i).floor)
  else []

/-- The multiset of the passenger lists in a list of lists. -/
def listMsum (l : List (List Passenger)) : Multiset Passenger :=
  (l.map (fun q => (q : Multiset Passenger))).sum

/-- All passengers waiting at some floor. -/
def queueMultiset (s : SimulationState) : Multiset Passenger :=
  listMsum s.waiting_passengers

/-- All passengers aboard some elevator. -/
def aboardMultiset (s : SimulationState) : Multiset Passenger :=
  listMsum (s.elevators.map Elevator.passengers)

/-- Every passenger currently tracked by the simulation. -/
def allPassengers (s : SimulationState) : Multiset Passenger :=
  queueMultiset s + aboardMultiset s

def openScore (s : SimulationState) (i : Nat) : Nat :=
  ((getElevator s i).passengers.filter
    (fun p => p.target_floor == (getElevator s i).floor)).foldl
    (fun acc p => acc + (s.turn - p.arrival_turn + 1) ^ 2) s.score

def openParts (s : SimulationState) (i : Nat) (picks : List Nat) :
    List Passenger × List Passenger × Option SimError :=
  pickLoop (getQueue s (getElevator s i).floor)
    ((getElevator s i).passengers.filter
      (fun p => !(p.target_floor == (getElevator s i).floor)))
    (getElevator s i).capacity (getElevator s i).floor (sortDesc picks)

/-! ### Concrete inputs used by witnesses and counterexamples -/

/-- A passenger waiting at floor 0 with destination floor 1. -/
def wP1 : Passenger := ⟨0, 0, 1⟩

/-- A passenger aboard elevator 0 with destination floor 0. -/
def wP2 : Passenger := ⟨1, 0, 0⟩

/-- A small concrete mid-run state: 3 floors, 2 elevators of capacity 2,
turn 4 of 10; elevator 0 sits at floor 0 carrying `wP2`, and `wP1` waits
at floor 0. -/
def wState : SimulationState :=
  { n := 3, m := 2, c := 2, t := 10, turn := 4, score := 0,
    elevators := [⟨0, 2, [wP2]⟩, ⟨2, 2, []⟩],
    waiting_passengers := [[wP1], [], []] }

/-- A command sequence exercising all four action keywords. -/
def wActs : List (Nat × String × List Nat) :=
  [(0, "UP", []), (1, "DOWN", []), (0, "OPEN", [0]), (1, "STAY", []),
   (0, "DOWN", []), (0, "DOWN", [])]

/-- An elevator carrying one passenger with destination floor 3 who
arrived at turn 5. -/
def bugElevator : Elevator := ⟨1, 10, [⟨7, 5, 3⟩]⟩

/-! ### List and multiset helpers -/

theorem getD_set_self {α : Type} (l : List α) (i : Nat) (a d : α) (h : i < l.length) :
    (l.set i a).getD i d = a := by
  rw [List.getD_eq_getElem _ _ (by simpa using h)]
  exact List.getElem_set_self _

theorem getD_mem {α : Type} (l : List α) (i : Nat) (d : α) (h : i < l.length) :
    l.getD i d ∈ l := by
  rw [List.getD_eq_getElem _ _ h]
  exact List.getElem_mem h

theorem coe_filter_add_filter_not {α : Type} (l : List α) (p : α → Bool) :
    (↑(l.filter p) + ↑(l.filter (fun a => !p a)) : Multiset α) = ↑l := by
  rw [Multiset.coe_add, Multiset.coe_eq_coe]
  exact List.filter_append_perm p l

theorem coe_eq_getD_cons_eraseIdx {α : Type} (l : List α) (i : Nat) (d : α)
    (h : i < l.length) :
    (↑l : Multiset α) = l.getD i d ::ₘ ↑(l.eraseIdx i) := by
  induction l generalizing i with
  | nil => simp at h
  | cons a l ih =>
    cases i with
    | zero => simp [List.getD]
    | succ j =>
      simp only [List.length_cons, Nat.succ_lt_succ_iff] at h
      simp only [List.getD_cons_succ, List.eraseIdx_cons_succ, ← Multiset.cons_coe]
      rw [ih j h]
      exact Multiset.cons_swap _ _ _

theorem listMsum_nil : listMsum [] = 0 := rfl

theorem listMsum_cons (q : List Passenger) (l : List (List Passenger)) :
    listMsum (q :: l) = ↑q + listMsum l := by
  simp [listMsum]

theorem listMsum_set (l : List (List Passenger)) (i : Nat) (q : List Passenger)
    (h : i < l.length) :
    listMsum (l.set i q) + ↑(l.getD i []) = listMsum l + ↑q := by
  induction l generalizing i with
  | nil => simp at h
  | cons a l ih =>
    cases i with
    | zero =>
      simp only [List.set_cons_zero, List.getD_cons_zero, listMsum_cons]
      abel
    | succ j =>
      simp only [List.length_cons, Nat.succ_lt_succ_iff] at h
      simp only [List.set_cons_succ, List.getD_cons_succ, listMsum_cons]
      have := ih j h
      calc (↑a : Multiset Passenger) + listMsum (l.set j q) + ↑(l.getD j []) =
          ↑a + (listMsum (l.set j q) + ↑(l.getD j [])) := by abel
        _ = ↑a + (listMsum l + ↑q) := by rw [this]
        _ = ↑a + listMsum l + ↑q := by abel

theorem getD_map_passengers (l : List Elevator) (i : Nat) :
    (l.map Elevator.passengers).getD i [] = (l.getD i defaultElevator).passengers := by
  by_cases h : i < l.length
  · rw [List.getD_eq_getElem _ _ (by simpa using h), List.getD_eq_getElem _ _ h,
      List.getElem_map]
  · rw [List.getD_eq_default _ _ (by simpa using Nat.le_of_not_lt h),
      List.getD_eq_default _ _ (Nat.le_of_not_lt h)]
    rfl

/-! ### Basic facts about the state accessors -/

theorem setElevator_waiting (s : SimulationState) (i : Nat) (e : Elevator) :
    (setElevator s i e).waiting_passengers = s.waiting_passengers := rfl

theorem setQueue_elevators (s : SimulationState) (f : Nat) (q : List Passenger) :
    (setQueue s f q).elevators = s.elevators := rfl

theorem getElevator_setQueue (s : SimulationState) (f : Nat) (q : List Passenger)
    (i : Nat) : getElevator (setQueue s f q) i = getElevator s i := rfl

theorem getQueue_setElevator (s : SimulationState) (i : Nat) (e : Elevator)
    (f : Nat) : getQueue (setElevator s i e) f = getQueue s f := rfl

theorem getElevator_setElevator_self (s : SimulationState) (i : Nat) (e : Elevator)
    (h : i < s.elevators.length) : getElevator (setElevator s i e) i = e :=
  getD_set_self _ _ _ _ h

theorem getQueue_setQueue_self (s : SimulationState) (f : Nat) (q : List Passenger)
    (h : f < s.waiting_passengers.length) : getQueue (setQueue s f q) f = q :=
  getD_set_self _ _ _ _ h

theorem queueMultiset_setQueue (s : SimulationState) (f : Nat) (q : List Passenger)
    (h : f < s.waiting_passengers.length) :
    queueMultiset (setQueue s f q) + ↑(getQueue s f) = queueMultiset s + ↑q :=
  listMsum_set _ _ _ h

theorem aboardMultiset_setQueue (s : SimulationState) (f : Nat) (q : List Passenger) :
    aboardMultiset (setQueue s f q) = aboardMultiset s := rfl

theorem queueMultiset_setElevator (s : SimulationState) (i : Nat) (e : Elevator) :
    queueMultiset (setElevator s i e) = queueMultiset s := rfl

theorem aboardMultiset_setElevator (s : SimulationState) (i : Nat) (e : Elevator)
    (h : i < s.elevators.length) :
    aboardMultiset (setElevator s i e) + ↑(getElevator s i).passengers
      = aboardMultiset s + ↑e.passengers := by
  unfold aboardMultiset setElevator getElevator
  simp only [List.map_set]
  have := listMsum_set (s.elevators.map Elevator.passengers) i e.passengers
    (by simpa using h)
  rw [getD_map_passengers] at this
  exact this

/-! ### The pick-up loop -/

/-- Structural description of one whole run of the pick-up loop: the
aboard list only grows, by a sublist `picked` drawn from the waiting
queue (each pick moves one passenger from the queue to the aboard list,
so the queue splits, as a multiset, into `picked` plus what is left), and
an aboard list that starts within `max el.length cap` stays there. -/
theorem pickLoop_spec (ds : List Nat) (q el : List Passenger) (cap f : Nat) :
    ∃ picked : List Passenger,
      (pickLoop q el cap f ds).2.1 = el ++ picked
      ∧ (↑q : Multiset Passenger) = ↑picked + ↑(pickLoop q el cap f ds).1
      ∧ (pickLoop q el cap f ds).2.1.length ≤ max el.length cap := by
  induction ds generalizing q el with
  | nil =>
    exact ⟨[], by simp [pickLoop], by simp [pickLoop], by simp [pickLoop]⟩
  | cons idx rest ih =>
    by_cases h1 : q.length ≤ idx
    · exact ⟨[], by simp [pickLoop, h1], by simp [pickLoop, h1],
        by simp [pickLoop, h1]⟩
    · by_cases h2 : cap ≤ el.length
      · have heq : pickLoop q el cap f (idx :: rest) = pickLoop q el cap f rest := by
          simp [pickLoop, h1, h2]
        rw [heq]
        exact ih q el
      · have heq : pickLoop q el cap f (idx :: rest)
            = pickLoop (q.eraseIdx idx) (el ++ [q.getD idx ⟨0, 0, 0⟩]) cap f rest := by
          simp [pickLoop, h1, h2]
        rw [heq]
        obtain ⟨picked, hel, hq, hlen⟩ := ih (q.eraseIdx idx) (el ++ [q.getD idx ⟨0, 0, 0⟩])
        refine ⟨q.getD idx ⟨0, 0, 0⟩ :: picked, ?_, ?_, ?_⟩
        · rw [hel]; simp
        · rw [coe_eq_getD_cons_eraseIdx q idx ⟨0, 0, 0⟩ (Nat.lt_of_not_le h1), hq,
            ← Multiset.cons_coe, Multiset.cons_add]
        · refine le_trans hlen ?_
          have hcap : el.length < cap := Nat.lt_of_not_le h2
          simp only [List.length_append, List.length_singleton]
          omega

/-- The pick-up loop never bails when the indices are strictly decreasing
and all below the live queue length: each removal shortens the queue by
one, but every later index is smaller still. -/
theorem pickLoop_noError (ds : List Nat) (q el : List Passenger) (cap f : Nat)
    (hp : List.Pairwise (fun a b => b < a) ds)
    (hb : ∀ d ∈ ds, d < q.length) :
    (pickLoop q el cap f ds).2.2 = none := by
  induction ds generalizing q el with
  | nil => simp [pickLoop]
  | cons idx rest ih =>
    have hidx : idx < q.length := hb idx (by simp)
    have h1 : ¬ q.length ≤ idx := Nat.not_le.mpr hidx
    rw [List.pairwise_cons] at hp
    by_cases h2 : cap ≤ el.length
    · have heq : pickLoop q el cap f (idx :: rest) = pickLoop q el cap f rest := by
        simp [pickLoop, h1, h2]
      rw [heq]
      exact ih q el hp.2 (fun d hd => hb d (List.mem_cons_of_mem _ hd))
    · have heq : pickLoop q el cap f (idx :: rest)
          = pickLoop (q.eraseIdx idx) (el ++ [q.getD idx ⟨0, 0, 0⟩]) cap f rest := by
        simp [pickLoop, h1, h2]
      rw [heq]
      refine ih (q.eraseIdx idx) (el ++ [q.getD idx ⟨0, 0, 0⟩]) hp.2 (fun d hd => ?_)
      have hd_lt : d < idx := hp.1 d hd
      rw [List.length_eraseIdx, if_pos hidx]
      omega

/-- While the elevator is at (or beyond) capacity, an in-range pick is
skipped and the loop moves on unchanged. -/
theorem pickLoop_skip_at_capacity (q el : List Passenger) (cap f idx : Nat)
    (rest : List Nat) (hidx : idx < q.length) (hcap : cap ≤ el.length) :
    pickLoop q el cap f (idx :: rest) = pickLoop q el cap f rest := by
  simp [pickLoop, Nat.not_le.mpr hidx, hcap]

/-- A successful pick removes exactly the passenger at queue position
`idx` and appends it to the aboard list. -/
theorem pickLoop_pick_step (q el : List Passenger) (cap f idx : Nat)
    (rest : List Nat) (hidx : idx < q.length) (hcap : el.length < cap) :
    pickLoop q el cap f (idx :: rest)
      = pickLoop (q.eraseIdx idx) (el ++ [q.getD idx ⟨0, 0, 0⟩]) cap f rest := by
  simp [pickLoop, Nat.not_le.mpr hidx, Nat.not_le.mpr hcap]

/-! ### The descending sort -/

theorem sortDesc_perm (l : List Nat) : (sortDesc l).Perm l :=
  List.perm_insertionSort _ l

theorem sortDesc_sorted (l : List Nat) :
    List.Sorted (fun a b => b ≤ a) (sortDesc l) :=
  List.sorted_insertionSort _ l

theorem sortDesc_pairwise_of_nodup (l : List Nat) (h : l.Nodup) :
    List.Pairwise (fun a b => b < a) (sortDesc l) := by
  have hn : (sortDesc l).Nodup := ((sortDesc_perm l).nodup_iff).mpr h
  have hs := sortDesc_sorted l
  exact (List.Pairwise.and hs hn).imp
    (fun hab => lt_of_le_of_ne hab.1 (Ne.symm hab.2))

theorem mem_sortDesc (l : List Nat) (a : Nat) : a ∈ sortDesc l ↔ a ∈ l :=
  (sortDesc_perm l).mem_iff

/-! ### Unfolding the action dispatcher -/

theorem applyAction_invalid_idx (s : SimulationState) (i : Nat) (a : String)
    (picks : List Nat) (h : s.m ≤ i) :
    applyAction s i a picks = (s, some (.invalidElevatorIndex i)) := by
  unfold applyAction
  rw [if_pos h]

theorem applyAction_up (s : SimulationState) (i : Nat) (picks : List Nat)
    (h : i < s.m) :
    applyAction s i "UP" picks
      = (setElevator s i
          { getElevator s i with floor := min ((getElevator s i).floor + 1) (s.n - 1) },
         none) := by
  unfold applyAction
  rw [if_neg (Nat.not_le.mpr h)]
  rfl

theorem applyAction_down (s : SimulationState) (i : Nat) (picks : List Nat)
    (h : i < s.m) :
    applyAction s i "DOWN" picks
      = (setElevator s i
          { getElevator s i with floor := (getElevator s i).floor - 1 },
         none) := by
  unfold applyAction
  rw [if_neg (Nat.not_le.mpr h)]
  rfl

theorem applyAction_stay (s : SimulationState) (i : Nat) (picks : List Nat)
    (h : i < s.m) :
    applyAction s i "STAY" picks = (s, none) := by
  unfold applyAction
  rw [if_neg (Nat.not_le.mpr h)]
  rfl

theorem applyAction_open (s : SimulationState) (i : Nat) (picks : List Nat)
    (h : i < s.m) :
    applyAction s i "OPEN" picks = openAction s i picks := by
  unfold applyAction
  rw [if_neg (Nat.not_le.mpr h)]
  rfl

theorem applyAction_unknown (s : SimulationState) (i : Nat) (a : String)
    (picks : List Nat) (h : i < s.m)
    (h1 : a ≠ "UP") (h2 : a ≠ "DOWN") (h3 : a ≠ "STAY") (h4 : a ≠ "OPEN") :
    applyAction s i a picks = (s, some (.unknownAction a)) := by
  unfold applyAction
  rw [if_neg (Nat.not_le.mpr h)]
  split
  · exact absurd rfl h1
  · exact absurd rfl h2
  · exact absurd rfl h3
  · exact absurd rfl h4
  · rfl

/-! ### Accumulating loops as sums -/

theorem foldl_add_eq_sum (f : Passenger → Nat) (l : List Passenger) (acc : Nat) :
    l.foldl (fun a p => a + f p) acc = acc + (l.map f).sum := by
  induction l generalizing acc with
  | nil => simp
  | cons p l ih => simp [ih, Nat.add_assoc]

theorem foldl_proj_eq_sum {α : Type} (g : α → List Passenger) (f : Passenger → Nat)
    (l : List α) (acc : Nat) :
    l.foldl (fun acc x => (g x).foldl (fun a p => a + f p) acc) acc
      = acc + (l.map (fun x => ((g x).map f).sum)).sum := by
  induction l generalizing acc with
  | nil => simp
  | cons x l ih =>
    simp only [List.foldl_cons, List.map_cons, List.sum_cons]
    rw [foldl_add_eq_sum, ih]
    exact (Nat.add_assoc _ _ _).symm ▸ rfl

/-! ### Anatomy of an OPEN action -/

/-- The pick-up-loop run an `OPEN` on elevator `i` performs (its inputs
read off the pre-action state). -/
theorem openAction_eq (s : SimulationState) (i : Nat) (picks : List Nat) :
    openAction s i picks
      = (setQueue
          (setElevator { s with score := openScore s i }
            i { getElevator s i with passengers := (openParts s i picks).2.1 })
          (getElevator s i).floor (openParts s i picks).1,
         (openParts s i picks).2.2) := rfl

theorem openAction_score (s : SimulationState) (i : Nat) (picks : List Nat) :
    (openAction s i picks).1.score
      = s.score + (((getElevator s i).passengers.filter
          (fun p => p.target_floor == (getElevator s i).floor)).map
          (fun p => (s.turn - p.arrival_turn + 1) ^ 2)).sum := by
  rw [openAction_eq]
  exact foldl_add_eq_sum _ _ _

theorem openAction_err (s : SimulationState) (i : Nat) (picks : List Nat) :
    (openAction s i picks).2 = (openParts s i picks).2.2 := rfl

theorem openAction_elevator (s : SimulationState) (i : Nat) (picks : List Nat)
    (h : i < s.elevators.length) :
    getElevator (openAction s i picks).1 i
      = { getElevator s i with passengers := (openParts s i picks).2.1 } := by
  rw [openAction_eq]
  exact getElevator_setElevator_self _ i _ h

theorem openAction_queue (s : SimulationState) (i : Nat) (picks : List Nat)
    (hf : (getElevator s i).floor < s.waiting_passengers.length) :
    getQueue (openAction s i picks).1 (getElevator s i).floor
      = (openParts s i picks).1 := by
  rw [openAction_eq]
  exact getQueue_setQueue_self _ _ _ hf

theorem foldl_lists_eq_sum (f : Passenger → Nat) (ll : List (List Passenger))
    (acc : Nat) :
    ll.foldl (fun acc q => q.foldl (fun a p => a + f p) acc) acc
      = acc + (ll.map (fun q => (q.map f).sum)).sum := by
  induction ll generalizing acc with
  | nil => simp
  | cons q ll ih =>
    simp only [List.foldl_cons, List.map_cons, List.sum_cons]
    rw [foldl_add_eq_sum, ih]
    exact (Nat.add_assoc _ _ _).symm ▸ rfl

/-! ### The claims -/

/-- Claim C1: an `OPEN` applied through `apply_action` removes from the
elevator exactly the aboard passengers whose `target_floor` is the
elevator's current floor, adds `(turn - arrival_turn + 1)^2` to the
cumulative score for each of them (so a passenger delivered on its
arrival turn contributes exactly 1), and removes no other aboard
passenger in the drop-off step: after the action the aboard list is the
non-delivered passengers followed only by passengers picked up from the
floor's waiting queue. -/
theorem claim_C1 (s : SimulationState) (i : Nat) (picks : List Nat)
    (hm : i < s.m) (hl : s.elevators.length = s.m)
    (ha : ∀ p ∈ (getElevator s i).passengers, p.arrival_turn ≤ s.turn) :
    ((applyAction s i "OPEN" picks).1.score
      = s.score + (((getElevator s i).passengers.filter
          (fun p => p.target_floor == (getElevator s i).floor)).map
          (fun p => (s.turn - p.arrival_turn + 1) ^ 2)).sum)
    ∧ (∀ p ∈ (getElevator s i).passengers,
        p.target_floor = (getElevator s i).floor → p.arrival_turn = s.turn →
          (s.turn - p.arrival_turn + 1) ^ 2 = 1)
    ∧ (∃ picked : List Passenger,
        (getElevator (applyAction s i "OPEN" picks).1 i).passengers
          = (getElevator s i).passengers.filter
              (fun p => !(p.target_floor == (getElevator s i).floor)) ++ picked
        ∧ (↑picked : Multiset Passenger) ≤ ↑(getQueue s (getElevator s i).floor)) := by
  rw [applyAction_open s i picks hm]
  refine ⟨openAction_score s i picks, ?_, ?_⟩
  · intro p _ _ harr
    rw [harr]
    simp
  · rw [openAction_elevator s i picks (hl ▸ hm)]
    obtain ⟨picked, hel, hq, _⟩ := pickLoop_spec (sortDesc picks)
      (getQueue s (getElevator s i).floor)
      ((getElevator s i).passengers.filter
        (fun p => !(p.target_floor == (getElevator s i).floor)))
      (getElevator s i).capacity (getElevator s i).floor
    refine ⟨picked, hel, ?_⟩
    rw [hq]
    exact self_le_add_right _ _

/-- Witness for C1 on `wState`: the `OPEN` delivers `wP2`
(arrival turn 0, delivered at turn 4, contribution `(4 - 0 + 1)^2 = 25`). -/
theorem claim_C1_witness : (applyAction wState 0 "OPEN" [0]).1.score = 25 := by
  have h := (claim_C1 wState 0 [0] (by decide) (by decide)
    (by intro p hp; fin_cases hp <;> decide)).1
  rw [h]
  decide

/-- Claim C2: `calculate_final_score` returns the cumulative score plus
`(t - arrival_turn)^2` (no `+ 1`) for every passenger still waiting at a
floor and every passenger still aboard an elevator; a passenger with
`arrival_turn = t` contributes 0.  The function reads the state without
modifying it (it is embedded as a pure function of the state, matching
the `&self` receiver in the source). -/
theorem claim_C2 (s : SimulationState)
    (hw : ∀ q ∈ s.waiting_passengers, ∀ p ∈ q, p.arrival_turn ≤ s.t)
    (he : ∀ e ∈ s.elevators, ∀ p ∈ e.passengers, p.arrival_turn ≤ s.t) :
    (calculate_final_score s
      = s.score
        + ((s.waiting_passengers.map
            (fun q => (q.map (fun p => (s.t - p.arrival_turn) ^ 2)).sum)).sum
          + (s.elevators.map
            (fun e => (e.passengers.map (fun p => (s.t - p.arrival_turn) ^ 2)).sum)).sum))
    ∧ (∀ p : Passenger, p.arrival_turn = s.t → (s.t - p.arrival_turn) ^ 2 = 0) := by
  constructor
  · unfold calculate_final_score
    rw [foldl_lists_eq_sum, foldl_proj_eq_sum Elevator.passengers]
    exact (Nat.add_assoc _ _ _).symm ▸ rfl
  · intro p hp
    rw [hp]
    simp

/-- Witness for C2 on `wState`: `wP1` still waiting and `wP2` still
aboard each contribute `(10 - 0)^2 = 100`. -/
theorem claim_C2_witness : calculate_final_score wState = 200 := by
  have h := (claim_C2 wState
    (by intro q hq p hp; fin_cases hq <;> simp_all <;> decide)
    (by intro e he p hp; fin_cases he <;> simp_all [wP2] <;> decide)).1
  rw [h]
  decide

/-- Claim C4: an `OPEN` never pushes an elevator past its capacity —
if the aboard count is at most the capacity before the action it still is
afterwards, whatever pick indices are supplied — and a pick attempted
while the elevator is at capacity is skipped silently (no error, queue
untouched) with processing continuing on the remaining indices. -/
theorem claim_C4 (s : SimulationState) (i : Nat) (picks : List Nat)
    (hm : i < s.m) (hl : s.elevators.length = s.m)
    (hc : (getElevator s i).passengers.length ≤ (getElevator s i).capacity) :
    ((getElevator (applyAction s i "OPEN" picks).1 i).passengers.length
      ≤ (getElevator s i).capacity)
    ∧ (∀ (q el : List Passenger) (cap f idx : Nat) (rest : List Nat),
        idx < q.length → cap ≤ el.length →
        pickLoop q el cap f (idx :: rest) = pickLoop q el cap f rest) := by
  refine ⟨?_, fun q el cap f idx rest h1 h2 =>
    pickLoop_skip_at_capacity q el cap f idx rest h1 h2⟩
  rw [applyAction_open s i picks hm, openAction_elevator s i picks (hl ▸ hm)]
  obtain ⟨picked, hel, hq, hlen⟩ := pickLoop_spec (sortDesc picks)
    (getQueue s (getElevator s i).floor)
    ((getElevator s i).passengers.filter
      (fun p => !(p.target_floor == (getElevator s i).floor)))
    (getElevator s i).capacity (getElevator s i).floor
  refine le_trans hlen (max_le (le_trans ?_ hc) le_rfl)
  exact List.length_filter_le _ _

/-- Witness for C4 on `wState`. -/
theorem claim_C4_witness :
    (getElevator (applyAction wState 0 "OPEN" [0]).1 0).passengers.length
      ≤ (getElevator wState 0).capacity :=
  (claim_C4 wState 0 [0] (by decide) (by decide) (by decide)).1

/-- Claim C10: `SimulationState::new(n, m, c, t)` starts at turn 0 with
score 0, `n` empty waiting queues and `m` elevators, each empty, of
capacity `c`, parked at floor `n / 2` (integer division) — not floor 0. -/
theorem claim_C10 (n m c t : Nat) :
    (SimulationState.new n m c t).turn = 0
    ∧ (SimulationState.new n m c t).score = 0
    ∧ (SimulationState.new n m c t).elevators.length = m
    ∧ (SimulationState.new n m c t).waiting_passengers.length = n
    ∧ (∀ i, i < m → getElevator (SimulationState.new n m c t) i
        = { floor := n / 2, capacity := c, passengers := [] })
    ∧ (∀ f, f < n → getQueue (SimulationState.new n m c t) f = []) := by
  refine ⟨rfl, rfl, by simp [SimulationState.new], by simp [SimulationState.new], ?_, ?_⟩
  · intro i hi
    unfold getElevator SimulationState.new
    rw [List.getD_eq_getElem _ _ (by simpa using hi)]
    simp
  · intro f hf
    unfold getQueue SimulationState.new
    rw [List.getD_eq_getElem _ _ (by simpa using hf)]
    simp

/-- Witness for C10 at the reference scenario parameters
(`n = 10, m = 3, c = 10, t = 100`): every elevator starts at floor 5. -/
theorem claim_C10_witness :
    getElevator (SimulationState.new 10 3 10 100) 1
        = { floor := 5, capacity := 10, passengers := [] }
    ∧ getQueue (SimulationState.new 10 3 10 100) 7 = [] :=
  ⟨(claim_C10 10 3 10 100).2.2.2.2.1 1 (by decide),
   (claim_C10 10 3 10 100).2.2.2.2.2 7 (by decide)⟩

theorem aboardMultiset_setElevator_same (s : SimulationState) (i : Nat)
    (e : Elevator) (h : i < s.elevators.length)
    (hp : e.passengers = (getElevator s i).passengers) :
    aboardMultiset (setElevator s i e) = aboardMultiset s := by
  have h2 := aboardMultiset_setElevator s i e h
  rw [hp] at h2
  exact add_right_cancel h2

/-- Everything an `OPEN` does to the passenger containers: the elevator
keeps exactly its non-delivered passengers plus a `picked` batch taken
out of the floor's queue (the queue splits into `picked` and its final
contents), and globally the only passengers that leave the containers are
the delivered ones. -/
theorem openAction_state_spec (s : SimulationState) (i : Nat) (picks : List Nat)
    (hil : i < s.elevators.length)
    (hfl : (getElevator s i).floor < s.waiting_passengers.length) :
    ∃ picked : List Passenger,
      (getElevator (openAction s i picks).1 i).passengers
        = (getElevator s i).passengers.filter
            (fun p => !(p.target_floor == (getElevator s i).floor)) ++ picked
      ∧ (↑(getQueue s (getElevator s i).floor) : Multiset Passenger)
          = ↑picked + ↑(getQueue (openAction s i picks).1 (getElevator s i).floor)
      ∧ allPassengers s
          = ↑((getElevator s i).passengers.filter
              (fun p => p.target_floor == (getElevator s i).floor))
            + allPassengers (openAction s i picks).1 := by
  obtain ⟨picked, hel, hq, _⟩ := pickLoop_spec (sortDesc picks)
    (getQueue s (getElevator s i).floor)
    ((getElevator s i).passengers.filter
      (fun p => !(p.target_floor == (getElevator s i).floor)))
    (getElevator s i).capacity (getElevator s i).floor
  have hElev : (getElevator (openAction s i picks).1 i).passengers
      = (openParts s i picks).2.1 := by
    rw [openAction_elevator s i picks hil]
  have hQ : getQueue (openAction s i picks).1 (getElevator s i).floor
      = (openParts s i picks).1 := openAction_queue s i picks hfl
  have hqO : (↑(getQueue s (getElevator s i).floor) : Multiset Passenger)
      = ↑picked + ↑(openParts s i picks).1 := hq
  refine ⟨picked, ?_, ?_, ?_⟩
  · rw [hElev]
    exact hel
  · rw [hQ]
    exact hq
  · have E1 : queueMultiset (openAction s i picks).1
        + ↑(getQueue s (getElevator s i).floor)
        = queueMultiset s + ↑(openParts s i picks).1 := by
      rw [openAction_eq]
      exact queueMultiset_setQueue _ _ _ hfl
    have E2 : aboardMultiset (openAction s i picks).1
        + ↑(getElevator s i).passengers
        = aboardMultiset s + ↑(openParts s i picks).2.1 := by
      rw [openAction_eq]
      exact aboardMultiset_setElevator { s with score := openScore s i } i _ hil
    have hsplit : (↑((getElevator s i).passengers.filter
          (fun p => p.target_floor == (getElevator s i).floor)) : Multiset Passenger)
        + ↑((getElevator s i).passengers.filter
          (fun p => !(p.target_floor == (getElevator s i).floor)))
        = ↑(getElevator s i).passengers :=
      coe_filter_add_filter_not _ _
    have hel2 : (↑(openParts s i picks).2.1 : Multiset Passenger)
        = ↑((getElevator s i).passengers.filter
            (fun p => !(p.target_floor == (getElevator s i).floor))) + ↑picked := by
      have : (openParts s i picks).2.1
          = (getElevator s i).passengers.filter
              (fun p => !(p.target_floor == (getElevator s i).floor)) ++ picked := hel
      rw [this, ← Multiset.coe_add]
    refine add_right_cancel (b := (↑(getQueue s (getElevator s i).floor)
      + ↑(getElevator s i).passengers : Multiset Passenger)) ?_
    unfold allPassengers
    calc queueMultiset s + aboardMultiset s
        + (↑(getQueue s (getElevator s i).floor) + ↑(getElevator s i).passengers)
        = (queueMultiset s + ↑(getQueue s (getElevator s i).floor))
          + (aboardMultiset s + ↑(getElevator s i).passengers) := by abel
      _ = (queueMultiset s + (↑picked + ↑(openParts s i picks).1))
          + (aboardMultiset s + ↑(getElevator s i).passengers) := by rw [← hqO]
      _ = (queueMultiset s + (↑picked + ↑(openParts s i picks).1))
          + (aboardMultiset s
            + (↑((getElevator s i).passengers.filter
                (fun p => p.target_floor == (getElevator s i).floor))
              + ↑((getElevator s i).passengers.filter
                (fun p => !(p.target_floor == (getElevator s i).floor))))) := by
            rw [hsplit]
      _ = ↑((getElevator s i).passengers.filter
              (fun p => p.target_floor == (getElevator s i).floor))
          + ((queueMultiset s + ↑(openParts s i picks).1)
            + (aboardMultiset s
              + (↑((getElevator s i).passengers.filter
                  (fun p => !(p.target_floor == (getElevator s i).floor))) + ↑picked))) := by
            abel
      _ = ↑((getElevator s i).passengers.filter
              (fun p => p.target_floor == (getElevator s i).floor))
          + ((queueMultiset (openAction s i picks).1
              + ↑(getQueue s (getElevator s i).floor))
            + (aboardMultiset s + ↑(openParts s i picks).2.1)) := by
            rw [E1, hel2]
      _ = ↑((getElevator s i).passengers.filter
              (fun p => p.target_floor == (getElevator s i).floor))
          + ((queueMultiset (openAction s i picks).1
              + ↑(getQueue s (getElevator s i).floor))
            + (aboardMultiset (openAction s i picks).1
              + ↑(getElevator s i).passengers)) := by
            rw [E2]
      _ = ↑((getElevator s i).passengers.filter
              (fun p => p.target_floor == (getElevator s i).floor))
          + (queueMultiset (openAction s i picks).1
            + aboardMultiset (openAction s i picks).1)
          + (↑(getQueue s (getElevator s i).floor)
            + ↑(getElevator s i).passengers) := by abel

/-! ### Preservation facts about the dispatcher -/

theorem applyAction_preserves (s : SimulationState) (i : Nat) (a : String)
    (p : List Nat) :
    (applyAction s i a p).1.n = s.n ∧ (applyAction s i a p).1.m = s.m
    ∧ (applyAction s i a p).1.t = s.t ∧ (applyAction s i a p).1.turn = s.turn := by
  unfold applyAction
  split
  · exact ⟨rfl, rfl, rfl, rfl⟩
  · split
    · exact ⟨rfl, rfl, rfl, rfl⟩
    · exact ⟨rfl, rfl, rfl, rfl⟩
    · exact ⟨rfl, rfl, rfl, rfl⟩
    · exact ⟨rfl, rfl, rfl, rfl⟩
    · exact ⟨rfl, rfl, rfl, rfl⟩

theorem applyAction_floor_lt (s : SimulationState) (i : Nat) (a : String)
    (p : List Nat) (hn : 1 ≤ s.n)
    (hf : ∀ e ∈ s.elevators, e.floor < s.n) :
    ∀ e ∈ (applyAction s i a p).1.elevators, e.floor < s.n := by
  have hfl : (getElevator s i).floor < s.n ∨ (getElevator s i).floor = 0 := by
    by_cases h : i < s.elevators.length
    · exact Or.inl (hf _ (getD_mem _ _ _ h))
    · right
      unfold getElevator
      rw [List.getD_eq_default _ _ (Nat.le_of_not_lt h)]
      rfl
  unfold applyAction
  split
  · exact hf
  · split
    · intro e he
      rcases List.mem_or_eq_of_mem_set he with h | h
      · exact hf e h
      · rw [h]
        show min ((getElevator s i).floor + 1) (s.n - 1) < s.n
        have := min_le_right ((getElevator s i).floor + 1) (s.n - 1)
        omega
    · intro e he
      rcases List.mem_or_eq_of_mem_set he with h | h
      · exact hf e h
      · rw [h]
        show (getElevator s i).floor - 1 < s.n
        rcases hfl with h2 | h2 <;> omega
    · exact hf
    · intro e he
      rw [openAction_eq] at he
      rcases List.mem_or_eq_of_mem_set he with h | h
      · exact hf e h
      · rw [h]
        show (getElevator s i).floor < s.n
        rcases hfl with h2 | h2 <;> omega
    · exact hf

theorem applySeq_floor_lt (acts : List (Nat × String × List Nat))
    (s : SimulationState) (hn : 1 ≤ s.n)
    (hf : ∀ e ∈ s.elevators, e.floor < s.n) :
    (applySeq s acts).n = s.n ∧ ∀ e ∈ (applySeq s acts).elevators, e.floor < s.n := by
  induction acts generalizing s with
  | nil => exact ⟨rfl, hf⟩
  | cons a rest ih =>
    have hpn : (applyAction s a.1 a.2.1 a.2.2).1.n = s.n :=
      (applyAction_preserves s a.1 a.2.1 a.2.2).1
    have hn2 : 1 ≤ (applyAction s a.1 a.2.1 a.2.2).1.n := by
      rw [hpn]
      exact hn
    have hf2 : ∀ e ∈ (applyAction s a.1 a.2.1 a.2.2).1.elevators,
        e.floor < (applyAction s a.1 a.2.1 a.2.2).1.n := by
      rw [hpn]
      exact applyAction_floor_lt s a.1 a.2.1 a.2.2 hn hf
    obtain ⟨ihn, ihf⟩ := ih (applyAction s a.1 a.2.1 a.2.2).1 hn2 hf2
    constructor
    · show (applySeq (applyAction s a.1 a.2.1 a.2.2).1 rest).n = s.n
      rw [ihn, hpn]
    · intro e he
      have h3 := ihf e he
      rw [hpn] at h3
      exact h3

/-- Claim C5: with `n ≥ 1` and all elevator floors within `[0, n-1]`, any
sequence of UP/DOWN/STAY/OPEN commands keeps every floor within
`[0, n-1]` (the lower bound is inherent to `Nat`): `UP` saturates at the
top floor (`min (floor + 1) (n - 1)`) and `DOWN` saturates at floor 0
(truncated subtraction), neither being an error. -/
theorem claim_C5 (s : SimulationState) (acts : List (Nat × String × List Nat))
    (hn : 1 ≤ s.n) (hf : ∀ e ∈ s.elevators, e.floor < s.n)
    (hacts : ∀ a ∈ acts,
      a.2.1 = "UP" ∨ a.2.1 = "DOWN" ∨ a.2.1 = "STAY" ∨ a.2.1 = "OPEN") :
    (∀ e ∈ (applySeq s acts).elevators, e.floor < s.n)
    ∧ (∀ i : Nat, i < s.m → i < s.elevators.length →
        (getElevator (applyAction s i "UP" []).1 i).floor
          = min ((getElevator s i).floor + 1) (s.n - 1)
        ∧ (getElevator (applyAction s i "DOWN" []).1 i).floor
          = (getElevator s i).floor - 1) := by
  refine ⟨(applySeq_floor_lt acts s hn hf).2, ?_⟩
  intro i him hil
  constructor
  · rw [applyAction_up s i [] him, getElevator_setElevator_self s i _ hil]
  · rw [applyAction_down s i [] him, getElevator_setElevator_self s i _ hil]

/-- Witness for C5 on `wState` and `wActs`. -/
theorem claim_C5_witness :
    (∀ e ∈ (applySeq wState wActs).elevators, e.floor < wState.n)
    ∧ ((getElevator (applyAction wState 0 "UP" []).1 0).floor
        = min ((getElevator wState 0).floor + 1) (wState.n - 1)
      ∧ (getElevator (applyAction wState 0 "DOWN" []).1 0).floor
        = (getElevator wState 0).floor - 1) :=
  ⟨(claim_C5 wState wActs (by decide) (by decide) (by decide)).1,
   (claim_C5 wState wActs (by decide) (by decide) (by decide)).2 0
     (by decide) (by decide)⟩

/-- Claim C3 fails on the code: the bound check is against the *live*
queue length, so a duplicated index that is below the start-of-OPEN queue
length still bails once the first copy's removal has shrunk the queue.
Here floor 0's queue has length 1, both supplied indices are `0 < 1`, and
yet `apply_action` returns the invalid-passenger-index error. -/
theorem claim_C3_counterexample :
    (∀ j ∈ [0, 0], j < (getQueue wState 0).length)
    ∧ (applyAction wState 0 "OPEN" [0, 0]).2
        = some (.invalidPassengerIndex 0 0) := by decide

/-- Claim C3 as amended: each pick index is checked against the queue
length *live at the moment it is processed* (so duplicates can bail even
though each copy is below the start length); a list of pairwise-distinct
indices, each below the start-of-OPEN queue length, never fails; any
index at or above the start length fails the whole action with the
invalid-passenger-index error; and a successful pick removes exactly the
addressed queue position's passenger and appends it to the aboard
list. -/
theorem claim_C3_amended (s : SimulationState) (i : Nat) (picks : List Nat)
    (hm : i < s.m) :
    (picks.Nodup → (∀ j ∈ picks, j < (getQueue s (getElevator s i).floor).length) →
        (applyAction s i "OPEN" picks).2 = none)
    ∧ ((∃ j ∈ picks, (getQueue s (getElevator s i).floor).length ≤ j) →
        ∃ j ∈ picks, (getQueue s (getElevator s i).floor).length ≤ j
          ∧ (applyAction s i "OPEN" picks).2
            = some (.invalidPassengerIndex j (getElevator s i).floor))
    ∧ (∀ (q el : List Passenger) (cap f idx : Nat) (rest : List Nat),
        idx < q.length → el.length < cap →
        pickLoop q el cap f (idx :: rest)
          = pickLoop (q.eraseIdx idx) (el ++ [q.getD idx ⟨0, 0, 0⟩]) cap f rest) := by
  rw [applyAction_open s i picks hm]
  refine ⟨?_, ?_, fun q el cap f idx rest h1 h2 =>
    pickLoop_pick_step q el cap f idx rest h1 h2⟩
  · intro hnd hb
    rw [openAction_err]
    exact pickLoop_noError (sortDesc picks) _ _ _ _
      (sortDesc_pairwise_of_nodup picks hnd)
      (fun d hd => hb d ((mem_sortDesc picks d).mp hd))
  · rintro ⟨j, hj, hlen⟩
    rw [openAction_err]
    cases hsd : sortDesc picks with
    | nil =>
      exact absurd ((mem_sortDesc picks j).mpr hj) (by rw [hsd]; simp)
    | cons h0 tl =>
      have hh0mem : h0 ∈ picks := (mem_sortDesc picks h0).mp (by rw [hsd]; simp)
      have hj_le : j ≤ h0 := by
        have hsorted := sortDesc_sorted picks
        have hjmem : j ∈ sortDesc picks := (mem_sortDesc picks j).mpr hj
        rw [hsd] at hsorted hjmem
        rcases List.mem_cons.mp hjmem with h | h
        · omega
        · exact (List.pairwise_cons.mp hsorted).1 j h
      have hlen0 : (getQueue s (getElevator s i).floor).length ≤ h0 :=
        le_trans hlen hj_le
      refine ⟨h0, hh0mem, hlen0, ?_⟩
      unfold openParts
      rw [hsd]
      simp [pickLoop, hlen0]

/-- Witness for the amended C3 on `wState`: one distinct in-range index
succeeds, while the out-of-range index 5 fails with the exact error. -/
theorem claim_C3_witness :
    ((applyAction wState 0 "OPEN" [0]).2 = none)
    ∧ (∃ j ∈ [5], (getQueue wState (getElevator wState 0).floor).length ≤ j
        ∧ (applyAction wState 0 "OPEN" [5]).2
          = some (.invalidPassengerIndex j (getElevator wState 0).floor)) :=
  ⟨(claim_C3_amended wState 0 [0] (by decide)).1 (by decide) (by decide),
   (claim_C3_amended wState 0 [5] (by decide)).2.1 ⟨5, by decide, by decide⟩⟩

/-- Claim C6: `apply_action` neither duplicates nor loses passengers,
whether it returns `Ok` or `Err`: the multiset of all tracked passengers
before the call equals the delivered passengers (dropped off at their
destination and discarded after scoring) plus the multiset of all tracked
passengers afterwards. -/
theorem claim_C6 (s : SimulationState) (i : Nat) (action : String)
    (picks : List Nat) (hl : s.elevators.length = s.m)
    (hwl : s.waiting_passengers.length = s.n)
    (hfl : ∀ e ∈ s.elevators, e.floor < s.n) :
    allPassengers s
      = ↑(deliveredBy s i action) + allPassengers (applyAction s i action picks).1 := by
  by_cases hm : s.m ≤ i
  · rw [applyAction_invalid_idx s i action picks hm]
    unfold deliveredBy
    rw [if_neg (fun hcon => absurd hcon.1 (Nat.not_lt.mpr hm))]
    simp
  · have him : i < s.m := Nat.lt_of_not_le hm
    have hil : i < s.elevators.length := by
      rw [hl]
      exact him
    by_cases hU : action = "UP"
    · subst hU
      rw [applyAction_up s i picks him]
      unfold deliveredBy
      rw [if_neg (fun hcon => by simpa using hcon.2)]
      show allPassengers s = ↑([] : List Passenger) + allPassengers (setElevator s i _)
      unfold allPassengers
      rw [aboardMultiset_setElevator_same s i
        { getElevator s i with
          floor := min ((getElevator s i).floor + 1) (s.n - 1) } hil rfl]
      simp [queueMultiset, setElevator_waiting]
    · by_cases hD : action = "DOWN"
      · subst hD
        rw [applyAction_down s i picks him]
        unfold deliveredBy
        rw [if_neg (fun hcon => by simpa using hcon.2)]
        show allPassengers s = ↑([] : List Passenger) + allPassengers (setElevator s i _)
        unfold allPassengers
        rw [aboardMultiset_setElevator_same s i
          { getElevator s i with floor := (getElevator s i).floor - 1 } hil rfl]
        simp [queueMultiset, setElevator_waiting]
      · by_cases hS : action = "STAY"
        · subst hS
          rw [applyAction_stay s i picks him]
          unfold deliveredBy
          rw [if_neg (fun hcon => by simpa using hcon.2)]
          simp
        · by_cases hO : action = "OPEN"
          · subst hO
            rw [applyAction_open s i picks him]
            unfold deliveredBy
            rw [if_pos ⟨him, rfl⟩]
            have hfl2 : (getElevator s i).floor < s.waiting_passengers.length := by
              rw [hwl]
              exact hfl _ (getD_mem _ _ _ hil)
            exact (openAction_state_spec s i picks hil hfl2).choose_spec.2.2
          · rw [applyAction_unknown s i action picks him hU hD hS hO]
            unfold deliveredBy
            rw [if_neg (fun hcon => absurd hcon.2 hO)]
            simp

/-- Witness for C6 on `wState`: the `OPEN` delivers exactly `wP2`. -/
theorem claim_C6_witness :
    allPassengers wState
      = ↑(deliveredBy wState 0 "OPEN")
        + allPassengers (applyAction wState 0 "OPEN" [0]).1 :=
  claim_C6 wState 0 "OPEN" [0] (by decide) (by decide) (by decide)

/-- Claim C7 fails on the code: with duplicated pick indices an `OPEN`
can complete a pick-up (mutating both the queue and the elevator) before
bailing on the second copy of the index, so the erroring call leaves
mutations beyond what the drop-off step completed.  Here the drop-off
leaves the aboard list `[wP1-free]` empty-of-targets, yet after the `Err`
the elevator holds the picked-up `wP1`. -/
theorem claim_C7_counterexample :
    ((applyAction wState 0 "OPEN" [0, 0]).2 ≠ none)
    ∧ ((getElevator wState 0).passengers.filter
        (fun p => !(p.target_floor == (getElevator wState 0).floor)) = [])
    ∧ ((getElevator (applyAction wState 0 "OPEN" [0, 0]).1 0).passengers
        = [wP1]) := by decide

/-- Claim C7 as amended: an invalid elevator index or an unknown action
keyword returns `Err` with the whole state unchanged; and an `OPEN`
(whether it returns `Ok` or `Err` on a pick index) leaves the addressed
elevator holding exactly its non-delivered passengers plus the pick-ups
completed before any invalid index was reached, those pick-ups being
drawn from the floor's waiting queue — i.e. the mutations on an erroring
`OPEN` are exactly the drop-off plus the already-completed pick-ups. -/
theorem claim_C7_amended (s : SimulationState) (i : Nat) (a : String)
    (picks : List Nat) (hl : s.elevators.length = s.m)
    (hwl : s.waiting_passengers.length = s.n)
    (hfl : ∀ e ∈ s.elevators, e.floor < s.n) :
    (s.m ≤ i → applyAction s i a picks = (s, some (.invalidElevatorIndex i)))
    ∧ (i < s.m → a ≠ "UP" → a ≠ "DOWN" → a ≠ "STAY" → a ≠ "OPEN" →
        applyAction s i a picks = (s, some (.unknownAction a)))
    ∧ (i < s.m →
        ∃ picked : List Passenger,
          (getElevator (applyAction s i "OPEN" picks).1 i).passengers
            = (getElevator s i).passengers.filter
                (fun p => !(p.target_floor == (getElevator s i).floor)) ++ picked
          ∧ (↑(getQueue s (getElevator s i).floor) : Multiset Passenger)
              = ↑picked
                + ↑(getQueue (applyAction s i "OPEN" picks).1
                    (getElevator s i).floor)) := by
  refine ⟨fun h => applyAction_invalid_idx s i a picks h,
    fun hm h1 h2 h3 h4 => applyAction_unknown s i a picks hm h1 h2 h3 h4,
    fun hm => ?_⟩
  rw [applyAction_open s i picks hm]
  have hil : i < s.elevators.length := by
    rw [hl]
    exact hm
  have hfl2 : (getElevator s i).floor < s.waiting_passengers.length := by
    rw [hwl]
    exact hfl _ (getD_mem _ _ _ hil)
  obtain ⟨picked, h1, h2, _⟩ := openAction_state_spec s i picks hil hfl2
  exact ⟨picked, h1, h2⟩

/-- Witness for the amended C7 on `wState`. -/
theorem claim_C7_witness :
    (applyAction wState 5 "STAY" [] = (wState, some (.invalidElevatorIndex 5)))
    ∧ (applyAction wState 0 "JUMP" [] = (wState, some (.unknownAction "JUMP")))
    ∧ (∃ picked : List Passenger,
        (getElevator (applyAction wState 0 "OPEN" [0, 0]).1 0).passengers
          = (getElevator wState 0).passengers.filter
              (fun p => !(p.target_floor == (getElevator wState 0).floor)) ++ picked
        ∧ (↑(getQueue wState (getElevator wState 0).floor) : Multiset Passenger)
            = ↑picked
              + ↑(getQueue (applyAction wState 0 "OPEN" [0, 0]).1
                  (getElevator wState 0).floor)) :=
  ⟨(claim_C7_amended wState 5 "STAY" [] (by decide) (by decide) (by decide)).1
      (by decide),
   (claim_C7_amended wState 0 "JUMP" [] (by decide) (by decide) (by decide)).2.1
      (by decide) (by decide) (by decide) (by decide) (by decide),
   (claim_C7_amended wState 0 "OPEN" [0, 0] (by decide) (by decide) (by decide)).2.2
      (by decide)⟩

/-! ### The judge's reply-reading loop -/

theorem processActions_exhausted (s : SimulationState) (turn i : Nat)
    (rest : List Nat) :
    processActions s turn (i :: rest) [] = (s, [], some (.agentTerminated turn i)) :=
  rfl

theorem processActions_stay_exhausted (s : SimulationState) (turn a b k : Nat)
    (hk : k < b) (hab : a + b ≤ s.m) :
    processActions s turn (List.range' a b) (List.replicate k ["STAY"])
      = (s, [], some (.agentTerminated turn (a + k))) := by
  induction b generalizing a k with
  | zero => omega
  | succ b ih =>
    rw [List.range'_succ]
    cases k with
    | zero => simpa using processActions_exhausted s turn a (List.range' (a + 1) b)
    | succ j =>
      rw [List.replicate_succ]
      have hstep : processActions s turn (a :: List.range' (a + 1) b)
          (["STAY"] :: List.replicate j ["STAY"])
          = processActions s turn (List.range' (a + 1) b)
            (List.replicate j ["STAY"]) := by
        simp [processActions, applyAction_stay s a [] (by omega)]
      rw [hstep, ih (a + 1) j (by omega) (by omega)]
      have h3 : a + 1 + j = a + (j + 1) := by omega
      rw [h3]

/-- Claim C8: if the agent's stdout is exhausted before all `m` reply
lines of a turn are read, the judge's loop fails with a fatal error
naming the current turn and the elevator index at which the stream ended
(so the run aborts without reporting a score): exhaustion at the head of
the remaining elevator list errors there, and a stream of exactly
`k < m` valid STAY replies fails at elevator `k`. -/
theorem claim_C8 (s : SimulationState) (turn k : Nat) (hk : k < s.m) :
    (∀ (i : Nat) (rest : List Nat),
        processActions s turn (i :: rest) []
          = (s, [], some (.agentTerminated turn i)))
    ∧ judgeTurnActions s turn (List.replicate k ["STAY"])
        = (s, [], some (.agentTerminated turn k)) := by
  refine ⟨fun i rest => processActions_exhausted s turn i rest, ?_⟩
  unfold judgeTurnActions
  rw [List.range_eq_range']
  simpa using processActions_stay_exhausted s turn 0 s.m k hk (by omega)

/-- Witness for C8 on `wState` (`m = 2`): a stream with a single STAY
reply dies at elevator 1 of turn 3. -/
theorem claim_C8_witness :
    (processActions wState 3 (0 :: [1]) []
        = (wState, [], some (.agentTerminated 3 0)))
    ∧ judgeTurnActions wState 3 (List.replicate 1 ["STAY"])
        = (wState, [], some (.agentTerminated 3 1)) :=
  ⟨(claim_C8 wState 3 1 (by decide)).1 0 [1], (claim_C8 wState 3 1 (by decide)).2⟩

/-- Claim C9 against the code: at turn 10 the judge's state line for
`bugElevator` carries the literal `0` where the claim (and the adjacent
source comment, which says the judge "originally sent
(turn - p.arrival_turn)") requires the elapsed time `10 - 5 = 5`; the
same holds for the floor lines.  The spec-side line layouts are
`specElevatorReportTokens` / `specFloorReportTokens`. -/
theorem claim_C9_divergence :
    elevatorReportTokens bugElevator = [1, 3, 0]
    ∧ specElevatorReportTokens 10 bugElevator = [1, 3, 5]
    ∧ elevatorReportTokens bugElevator ≠ specElevatorReportTokens 10 bugElevator
    ∧ floorReportTokens [⟨7, 5, 3⟩] = [1, 3, 0]
    ∧ specFloorReportTokens 10 [⟨7, 5, 3⟩] = [1, 3, 5]
    ∧ floorReportTokens [⟨7, 5, 3⟩] ≠ specFloorReportTokens 10 [⟨7, 5, 3⟩] := by
  decide

end ElevatorSim
